import Mathlib

/-!
Verification of the dbt-duckdb ETL scripts against their natural-language
specification.  The Python sources are shallowly embedded: pure helper
functions become Lean functions over lists, rationals stand in for the
floating-point cell values handled by pandas, strings model the text lines
handled by the SQL-dump cleaner, and scripts that drive external tools are
modelled by the trace of operations they emit as a function of the
externally observed inputs (exit codes, rclone statuses, parsed files).
-/

/-! ## String primitives

`strStartsWith s p` embeds Python `s.startswith(p)` and `strContainsSub s p`
embeds Python `p in s`, both via the character lists underlying the strings,
so that every predicate below is kernel-computable. -/

/-- Does `pat` occur as a contiguous substring of `cs`? -/
def hasInfixChars (pat : List Char) : List Char → Bool
  | [] => pat.isEmpty
  | c :: cs => pat.isPrefixOf (c :: cs) || hasInfixChars pat cs

/-- Python `s.startswith(p)`. -/
def strStartsWith (s p : String) : Bool :=
  p.toList.isPrefixOf s.toList

/-- Python `p in s` (substring containment). -/
def strContainsSub (s p : String) : Bool :=
  hasInfixChars p.toList s.toList

/-! ## Mart-table selection (export_parquet.py, duckdb2sqlite.py)

Both exporters compute `mart_prefixes = ("fct_", "dim_")` and keep a table
iff `table_name.startswith(mart_prefixes)`. -/

/-- The `mart_prefixes` tuple of export_parquet.py, duckdbexport.py and
duckdb2sqlite.py: `("fct_", "dim_")`. -/
def mart_prefixes : List String := ["fct_", "dim_"]

/-- Python `table_name.startswith(mart_prefixes)` for the tuple above. -/
def isMartName (t : String) : Bool :=
  mart_prefixes.any (fun p => strStartsWith t p)

/-- Table names exported by `export_mart_tables_parquet` (export_parquet.py
lines 10-38 and duckdbexport.py lines 235-256): the loop over `SHOW TABLES`
exports exactly the names passing the `startswith(mart_prefixes)` test. -/
def export_mart_tables_parquet (tables : List String) : List String :=
  tables.filter isMartName

/-- Table names exported by `export_duckdb_to_sqlite` (duckdb2sqlite.py
lines 76-86): the same `startswith(mart_prefixes)` test gates the export. -/
def export_duckdb_to_sqlite (tables : List String) : List String :=
  tables.filter isMartName

/-! ## rclone check-then-copy (download_wdi.py, download_population.py, populate.py)

`sync_to_r2` runs `rclone check` once, and runs `rclone copy` and returns
True exactly when the check's exit code is nonzero. -/

/-- The external commands `sync_to_r2` can spawn. -/
inductive RCmd
  | check
  | copy
deriving DecidableEq

/-- `sync_to_r2` (download_wdi.py lines 30-43, download_population.py lines
101-114, populate.py lines 44-55): result paired with the trace of rclone
invocations, as a function of the exit code of `rclone check`. -/
def sync_to_r2 (checkReturncode : Int) : Bool × List RCmd :=
  if checkReturncode = 0 then
    (false, [RCmd.check])
  else
    (true, [RCmd.check, RCmd.copy])

/-! ## Population-record filtering (download_population.py, populate.py) -/

/-- One record of the World Bank API response, keeping the two fields the
scripts read: `countryiso3code` and `value` (either may be JSON null). -/
structure ApiRecord where
  countryiso3code : Option String
  value : Option Int
deriving DecidableEq

/-- One row retained for saving/import: `country_code` holds the record's
`countryiso3code`, `population` its `value`. -/
structure PopRow where
  country_code : Option String
  population : Option Int
deriving DecidableEq

/-- The list comprehension shared by `fetch_population_data_async`
(download_population.py lines 52-56 and 73-77): rows with
`row.get("countryiso3code") is not None` become dicts
`{"country_code": ..., "population": ...}`. -/
def page_pop_rows (records : List ApiRecord) : List PopRow :=
  (records.filter (fun r => r.countryiso3code.isSome)).map
    (fun r => { country_code := r.countryiso3code, population := r.value })

/-- The list comprehension of `fetch_population_data` (populate.py lines
149-152): the same filter, building `(country_code, population)` tuples. -/
def populate_pop_list (records : List ApiRecord) : List (Option String × Option Int) :=
  (records.filter (fun r => r.countryiso3code.isSome)).map
    (fun r => (r.countryiso3code, r.value))

/-! ## Concurrent page fetching (download_population.py)

`fetch_population_data_async` fetches page 1, then builds one task per
remaining page (`for p in range(2, total_pages + 1)`), submits them all to a
single `asyncio.gather`, gated by `asyncio.Semaphore(10)`. -/

/-- The pages whose fetch tasks are submitted together to `asyncio.gather`
(download_population.py lines 67-71): `range(2, total_pages + 1)`. -/
def fetch_tasks_pages (total_pages : Nat) : List Nat :=
  List.range' 2 (total_pages - 1)

/-- The `asyncio.Semaphore(10)` bound of download_population.py line 61. -/
def semaphore_limit : Nat := 10

/-- Upper bound on page fetches in flight at once: all tasks are gathered
together, so only the semaphore and the task count limit concurrency. -/
def max_concurrent_fetches (total_pages : Nat) : Nat :=
  min semaphore_limit (fetch_tasks_pages total_pages).length

/-! ## update_d1.py main loop -/

/-- The externally visible operations of update_d1.py `main`. -/
inductive D1Action
  | exportSqlite (tables : List String)
  | dumpTable (t : String)
  | dropTable (t : String)
  | execDump (t : String)
deriving DecidableEq

/-- The per-table loop of update_d1.py `main` (lines 131-136): dump the
table from SQLite, `DROP TABLE IF EXISTS` it in D1, then execute the cleaned
dump file. -/
def update_d1_loop : List String → List D1Action
  | [] => []
  | t :: ts =>
      D1Action.dumpTable t :: D1Action.dropTable t :: D1Action.execDump t ::
        update_d1_loop ts

/-- update_d1.py `main` (lines 126-138): first export the changed tables to
a fresh SQLite file, then run the per-table loop. -/
def update_d1_main (changed_tables : List String) : List D1Action :=
  D1Action.exportSqlite changed_tables :: update_d1_loop changed_tables

/-! ## SQL-dump cleaner (duckdb2sqlite.py, update_d1.py, duckdbexport.py)

`dump_and_clean_sqlite` and `dump_table_from_sqlite` share one loop over
`dump_text.splitlines()`: transaction lines are skipped, a line matching the
regex `^CREATE TABLE _cf_KV ` raises a `skip_kv_block` flag, and while the
flag is up every line is skipped, the flag dropping on a line containing
`WITHOUT ROWID;`.  The loop also counts processed and skipped lines. -/

/-- `line.startswith("BEGIN TRANSACTION;") or line.startswith("COMMIT;")`. -/
def isTxnLine (l : String) : Bool :=
  strStartsWith l "BEGIN TRANSACTION;" || strStartsWith l "COMMIT;"

/-- `re.compile(r'^CREATE TABLE _cf_KV ').match(line)`: anchored at the
start, so a match is exactly the prefix test. -/
def isKvStart (l : String) : Bool :=
  strStartsWith l "CREATE TABLE _cf_KV "

/-- `"WITHOUT ROWID;" in line`. -/
def hasRowidEnd (l : String) : Bool :=
  strContainsSub l "WITHOUT ROWID;"

/-- The cleaning loop of `dump_and_clean_sqlite` (duckdb2sqlite.py lines
105-127, duckdbexport.py lines 93-110) and `dump_table_from_sqlite`
(update_d1.py lines 70-85, duckdbexport.py lines 332-350), with the
`skip_kv_block` flag made an explicit argument. -/
def cleanGo (skipKv : Bool) : List String → List String
  | [] => []
  | l :: ls =>
      if isTxnLine l then cleanGo skipKv ls
      else if isKvStart l then cleanGo true ls
      else if skipKv then
        (if hasRowidEnd l then cleanGo false ls else cleanGo true ls)
      else l :: cleanGo false ls

/-- The `skipped_lines` counter of the same loop. -/
def skippedCount (skipKv : Bool) : List String → Nat
  | [] => 0
  | l :: ls =>
      if isTxnLine l then skippedCount skipKv ls + 1
      else if isKvStart l then skippedCount true ls + 1
      else if skipKv then
        (if hasRowidEnd l then skippedCount false ls else skippedCount true ls) + 1
      else skippedCount false ls

/-- The cleaner applied to a whole dump (the flag starts lowered). -/
def dump_and_clean_sqlite (lines : List String) : List String :=
  cleanGo false lines

/-- Index of the first line matching `^CREATE TABLE _cf_KV `, if any. -/
def firstKvStartIdx (lines : List String) : Option Nat :=
  ((lines.enum.filter (fun p => isKvStart p.2)).map (fun p => p.1)).head?

/-- Index of the first line after position `i` containing `WITHOUT ROWID;`,
if any. -/
def kvEndIdx (lines : List String) (i : Nat) : Option Nat :=
  ((lines.enum.filter (fun p => decide (i < p.1) && hasRowidEnd p.2)).map
    (fun p => p.1)).head?

/-- The _cf_KV block exactly as the claim words it: the lines from the
first line matching `^CREATE TABLE _cf_KV ` through the first subsequent
line containing `WITHOUT ROWID;`, inclusive (to the end if none). -/
def inClaimedKvBlock (lines : List String) (k : Nat) : Bool :=
  match firstKvStartIdx lines with
  | none => false
  | some i =>
      if k < i then false
      else
        match kvEndIdx lines i with
        | none => true
        | some j => decide (k ≤ j)

/-- The cleaner as the claim describes it declaratively: the input's lines,
in order, minus transaction lines and minus the claimed _cf_KV block. -/
def cleanClaimedSpec (lines : List String) : List String :=
  (lines.enum.filter
    (fun p => !isTxnLine p.2 && !inClaimedKvBlock lines p.1)).map (fun p => p.2)

/-- Which positions lie in a _cf_KV block under the amended reading: a
block opens at a line matching `^CREATE TABLE _cf_KV ` and closes at the
first later line that contains `WITHOUT ROWID;` and neither is a
transaction line nor matches the pattern itself; blocks may repeat. -/
def kvMask : Bool → List String → List Bool
  | _, [] => []
  | true, l :: ls =>
      true :: kvMask (!(hasRowidEnd l && !isTxnLine l && !isKvStart l)) ls
  | false, l :: ls =>
      if isTxnLine l then false :: kvMask false ls
      else if isKvStart l then true :: kvMask true ls
      else false :: kvMask false ls

/-- The amended declarative cleaner: the input's lines, in order, minus
transaction lines and minus the positions marked by `kvMask`. -/
def cleanAmendedSpec (lines : List String) : List String :=
  ((lines.zip (kvMask false lines)).filter
    (fun p => !isTxnLine p.1 && !p.2)).map (fun p => p.1)

/-! ## Parquet change detection (duckdbexport.py, sync_remote_parquet.py)

A dataframe is a list of rows, a row a list of rational cell values.
`load_and_sort_parquet` sorts the frame by all of its columns (row-wise
lexicographic order) — `reset_index(drop=True)` leaves no trace in this
model, which carries no index.  `pd.testing.assert_frame_equal(local_df,
remote_df, rtol=1e-5, atol=5e-4, check_exact=False)` passes iff the shapes
match and every pair of cells satisfies `|a - b| <= atol + rtol * |b|`
with `b` the remote (second) value. -/

/-- A row of a dataframe. -/
abbrev DFRow := List ℚ

/-- A dataframe: its rows in order. -/
abbrev DFrame := List DFRow

/-- The `atol=5e-4` argument. -/
def atol : ℚ := 5 / 10000

/-- The `rtol=1e-5` argument. -/
def rtol : ℚ := 1 / 100000

/-- One cell comparison of `assert_frame_equal`'s tolerant mode. -/
def valWithinTol (a b : ℚ) : Bool :=
  decide (|a - b| ≤ atol + rtol * |b|)

/-- Row comparison: same width and every cell within tolerance. -/
def rowWithinTol (r1 r2 : DFRow) : Bool :=
  r1.length == r2.length && (r1.zip r2).all (fun p => valWithinTol p.1 p.2)

/-- `assert_frame_equal(f1, f2, rtol=1e-5, atol=5e-4, check_exact=False)`
succeeding: same number of rows and every row pair within tolerance. -/
def frameWithinTol (f1 f2 : DFrame) : Bool :=
  f1.length == f2.length && (f1.zip f2).all (fun p => rowWithinTol p.1 p.2)

/-- `df.sort_values(by=df.columns.tolist())`: sort the rows by all columns,
i.e. lexicographically. -/
def sortFrame (f : DFrame) : DFrame :=
  f.insertionSort (· ≤ ·)

/-- `load_and_sort_parquet_file` (sync_remote_parquet.py lines 12-15) /
`load_and_sort_parquet` (duckdbexport.py lines 278-286): the parse result of
the file (`none` models a read that raises) with its frame sorted. -/
def load_and_sort_parquet_file (file : Option DFrame) : Option DFrame :=
  file.map sortFrame

/-- One local mart Parquet file with its remote counterpart, as
`get_changed_mart_tables_from_parquet` observes them: the table name, the
`os.path.exists` result for the remote copy, whether the two files' raw
bytes agree, and each file's parse result (`none` = loading raises). -/
structure MartParquetPair where
  name : String
  remoteExists : Bool
  sameBytes : Bool
  localFile : Option DFrame
  remoteFile : Option DFrame

/-- `get_changed_mart_tables_from_parquet` (duckdbexport.py lines 289-320):
per file — remote missing ⇒ changed; a load failure ⇒ changed; otherwise
changed iff the tolerant comparison of the sorted frames raises.  The raw
bytes are never consulted. -/
def get_changed_mart_tables_from_parquet : List MartParquetPair → List String
  | [] => []
  | t :: ts =>
      let rest := get_changed_mart_tables_from_parquet ts
      if !t.remoteExists then t.name :: rest
      else
        match load_and_sort_parquet_file t.localFile,
              load_and_sort_parquet_file t.remoteFile with
        | some ldf, some rdf =>
            if frameWithinTol ldf rdf then rest else t.name :: rest
        | _, _ => t.name :: rest

/-- The change condition exactly as the claim words it: the remote
counterpart is missing, a file fails to load or compare, or the two frames
(each sorted by all of its columns) differ beyond the tolerances. -/
def changedPerClaim (t : MartParquetPair) : Bool :=
  !t.remoteExists || t.localFile.isNone || t.remoteFile.isNone ||
    !frameWithinTol (sortFrame (t.localFile.getD []))
      (sortFrame (t.remoteFile.getD []))

/-! ## sync_remote_parquet.py main -/

/-- Characters of the last path component (Python `os.path.basename`). -/
def basenameChars (cs : List Char) : List Char :=
  cs.foldl (fun acc c => if c = '/' then [] else acc ++ [c]) []

/-- Python `os.path.basename`. -/
def osPathBasename (s : String) : String :=
  ⟨basenameChars s.toList⟩

/-- Index of the last `'.'` in `cs`, if any. -/
def lastDotIdx (cs : List Char) : Option Nat :=
  ((cs.enum.filter (fun p => p.2 == '.')).map (fun p => p.1)).getLast?

/-- The root part of Python `os.path.splitext` on a bare filename: split at
the last dot provided some earlier character is not a dot (so an all-dots
prefix, e.g. `.bashrc`, keeps its extension attached). -/
def splitextStem (s : String) : String :=
  match lastDotIdx s.toList with
  | none => s
  | some i =>
      if (s.toList.take i).any (fun c => c != '.') then ⟨s.toList.take i⟩
      else s

/-- `os.path.splitext(os.path.basename(f))[0]` (sync_remote_parquet.py
lines 201-202). -/
def changedTableName (f : String) : String :=
  splitextStem (osPathBasename f)

/-- The externally visible operations of sync_remote_parquet.py `main`
after change detection. -/
inductive SyncEvent
  | upload (files : List String)
  | writeJson (tables : List String)
deriving DecidableEq

/-- sync_remote_parquet.py `main` (lines 192-211) as a function of the
change-detection result and the `--no-updates` flag: when files changed,
upload them unless the flag is set, and name their tables; always write the
output JSON. -/
def sync_main_events (changed_files : List String) (no_updates : Bool) :
    List SyncEvent :=
  if changed_files.isEmpty then [SyncEvent.writeJson []]
  else
    (if no_updates then [] else [SyncEvent.upload changed_files]) ++
      [SyncEvent.writeJson (changed_files.map changedTableName)]

/-! ## Theorems -/

/-- C2 counterexample: a table named `agg_population` carries the `agg_`
prefix the claim lists, yet neither the Parquet exporter nor the SQLite
exporter exports it — `mart_prefixes` holds only `fct_` and `dim_`. -/
theorem C2_agg_table_not_exported :
    strStartsWith "agg_population" "agg_" = true ∧
    export_mart_tables_parquet ["agg_population"] = [] ∧
    export_duckdb_to_sqlite ["agg_population"] = [] := by
  decide

/-- C2 (amended): both export operations export a table iff its name is
prefixed `fct_` or `dim_`; every other table, `agg_`-prefixed ones
included, is skipped, and the two exporters select the same tables. -/
theorem C2_mart_export_iff (tables : List String) (t : String) :
    (t ∈ export_mart_tables_parquet tables ↔
      t ∈ tables ∧ (strStartsWith t "fct_" || strStartsWith t "dim_") = true) ∧
    export_duckdb_to_sqlite tables = export_mart_tables_parquet tables := by
  refine ⟨?_, rfl⟩
  simp [export_mart_tables_parquet, List.mem_filter, isMartName, mart_prefixes]

/-- C6: `sync_to_r2` runs `rclone check` exactly once, and runs the copy
and returns True iff the check's exit code is nonzero; on exit code zero it
returns False with no copy. -/
theorem C6_sync_to_r2_check_gates_copy (rc : Int) :
    ((sync_to_r2 rc).1 = true ↔ rc ≠ 0) ∧
    (RCmd.copy ∈ (sync_to_r2 rc).2 ↔ rc ≠ 0) ∧
    (sync_to_r2 rc).2.count RCmd.check = 1 := by
  by_cases h : rc = 0 <;> simp [sync_to_r2, h]

/-- C7 counterexample: already with three pages, download_population.py
submits the two remaining page fetches to one `asyncio.gather`, so more
than one external fetch is pending at once — the scripts are not all
sequential. -/
theorem C7_concurrent_fetch_counterexample :
    (fetch_tasks_pages 3).length = 2 ∧ ¬ max_concurrent_fetches 3 ≤ 1 := by
  decide

/-- C7 (amended): download_population.py is not sequential — it submits all
`total_pages - 1` remaining page fetches to a single gather, and whenever
at least two remain, at least two (up to the semaphore's ten) may be in
flight concurrently. -/
theorem C7_download_population_concurrent (total_pages : Nat)
    (h : 3 ≤ total_pages) :
    (fetch_tasks_pages total_pages).length = total_pages - 1 ∧
    2 ≤ max_concurrent_fetches total_pages ∧
    max_concurrent_fetches total_pages ≤ semaphore_limit := by
  refine ⟨by simp [fetch_tasks_pages], ?_, ?_⟩
  · rw [max_concurrent_fetches, fetch_tasks_pages, List.length_range']
    rw [semaphore_limit]
    omega
  · exact min_le_left _ _

/-- Witness for C7: twelve pages give eleven gathered fetch tasks, at most
ten admitted at once. -/
theorem C7_download_population_concurrent_witness :
    (fetch_tasks_pages 12).length = 12 - 1 ∧
    2 ≤ max_concurrent_fetches 12 ∧
    max_concurrent_fetches 12 ≤ semaphore_limit :=
  C7_download_population_concurrent 12 (by decide)

/-- For every table of the input list, the loop's dump/drop/exec triple
occurs in order. -/
theorem update_d1_loop_has_triple {t : String} {ts : List String}
    (h : t ∈ ts) :
    [D1Action.dumpTable t, D1Action.dropTable t, D1Action.execDump t].Sublist
      (update_d1_loop ts) := by
  induction ts with
  | nil => cases h
  | cons a as ih =>
      rcases List.mem_cons.mp h with rfl | h'
      · exact (((List.nil_sublist (update_d1_loop as)).cons₂ _).cons₂ _).cons₂ _
      · exact (((ih h').cons _).cons _).cons _

/-- The loop drops only tables of the input list. -/
theorem update_d1_loop_drop_mem {t : String} {ts : List String}
    (h : D1Action.dropTable t ∈ update_d1_loop ts) : t ∈ ts := by
  induction ts with
  | nil => cases h
  | cons a as ih =>
      simp [update_d1_loop, List.mem_cons] at h
      rcases h with rfl | h
      · exact List.mem_cons_self t as
      · exact List.mem_cons_of_mem a (ih h)

/-- The loop executes dumps only for tables of the input list. -/
theorem update_d1_loop_exec_mem {t : String} {ts : List String}
    (h : D1Action.execDump t ∈ update_d1_loop ts) : t ∈ ts := by
  induction ts with
  | nil => cases h
  | cons a as ih =>
      simp [update_d1_loop, List.mem_cons] at h
      rcases h with rfl | h
      · exact List.mem_cons_self t as
      · exact List.mem_cons_of_mem a (ih h)

/-- C4: update_d1.py `main` first exports the changed tables to SQLite;
every table of the input list is then dumped, dropped from D1 and
re-created from the dump, in that order, and no other table is ever
dropped or updated. -/
theorem C4_update_d1_regenerates_changed (ts : List String) (t : String) :
    (update_d1_main ts).head? = some (D1Action.exportSqlite ts) ∧
    (t ∈ ts →
      [D1Action.dumpTable t, D1Action.dropTable t,
        D1Action.execDump t].Sublist (update_d1_main ts)) ∧
    (D1Action.dropTable t ∈ update_d1_main ts → t ∈ ts) ∧
    (D1Action.execDump t ∈ update_d1_main ts → t ∈ ts) := by
  refine ⟨rfl, ?_, ?_, ?_⟩
  · intro h
    exact (update_d1_loop_has_triple h).cons _
  · intro h
    rcases List.mem_cons.mp h with h' | h'
    · cases h'
    · exact update_d1_loop_drop_mem h'
  · intro h
    rcases List.mem_cons.mp h with h' | h'
    · cases h'
    · exact update_d1_loop_exec_mem h'

/-- Witness for C4 at a concrete changed-tables list. -/
theorem C4_update_d1_regenerates_changed_witness :
    (update_d1_main ["fct_wdi_history", "dim_country"]).head? =
      some (D1Action.exportSqlite ["fct_wdi_history", "dim_country"]) ∧
    [D1Action.dumpTable "dim_country", D1Action.dropTable "dim_country",
      D1Action.execDump "dim_country"].Sublist
        (update_d1_main ["fct_wdi_history", "dim_country"]) :=
  ⟨(C4_update_d1_regenerates_changed ["fct_wdi_history", "dim_country"]
      "dim_country").1,
   (C4_update_d1_regenerates_changed ["fct_wdi_history", "dim_country"]
      "dim_country").2.1 (by decide)⟩

/-- C10: every retained population row keeps a non-None country code, every
record with a country code is retained (a None population included), in
both the async downloader and the populate script. -/
theorem C10_pop_rows_have_country_code (records : List ApiRecord) :
    (∀ o ∈ page_pop_rows records, o.country_code ≠ none) ∧
    (∀ r ∈ records, r.countryiso3code.isSome →
      ({ country_code := r.countryiso3code, population := r.value } : PopRow) ∈
        page_pop_rows records) ∧
    (∀ p ∈ populate_pop_list records, p.1 ≠ none) := by
  refine ⟨?_, ?_, ?_⟩
  · intro o ho
    simp only [page_pop_rows, List.mem_map, List.mem_filter] at ho
    obtain ⟨r, ⟨_, hsome⟩, rfl⟩ := ho
    simp only [ne_eq]
    rcases Option.isSome_iff_exists.mp hsome with ⟨c, hc⟩
    simp [hc]
  · intro r hr hsome
    simp only [page_pop_rows, List.mem_map, List.mem_filter]
    exact ⟨r, ⟨hr, hsome⟩, rfl⟩
  · intro p hp
    simp only [populate_pop_list, List.mem_map, List.mem_filter] at hp
    obtain ⟨r, ⟨_, hsome⟩, rfl⟩ := hp
    simp only [ne_eq]
    rcases Option.isSome_iff_exists.mp hsome with ⟨c, hc⟩
    simp [hc]

/-- Witness for C10: a record with a country code but a null population is
retained, population still None. -/
theorem C10_pop_rows_have_country_code_witness :
    ({ country_code := some "USA", population := none } : PopRow) ∈
      page_pop_rows [⟨some "USA", none⟩] :=
  (C10_pop_rows_have_country_code [⟨some "USA", none⟩]).2.1
    ⟨some "USA", none⟩ (by decide) (by decide)

/-- The cleaner's state machine equals the amended declarative mask-based
description, for either starting state of the flag. -/
theorem cleanGo_eq_mask (b : Bool) (ls : List String) :
    cleanGo b ls =
      ((ls.zip (kvMask b ls)).filter
        (fun p => !isTxnLine p.1 && !p.2)).map (fun p => p.1) := by
  induction ls generalizing b with
  | nil => cases b <;> rfl
  | cons l ls ih =>
      cases b with
      | true =>
          by_cases ht : isTxnLine l
          · simp [cleanGo, kvMask, ht, ih]
          · by_cases hk : isKvStart l
            · simp [cleanGo, kvMask, ht, hk, ih]
            · by_cases hr : hasRowidEnd l
              · simp [cleanGo, kvMask, ht, hk, hr, ih]
              · simp [cleanGo, kvMask, ht, hk, hr, ih]
      | false =>
          by_cases ht : isTxnLine l
          · simp [cleanGo, kvMask, ht, ih]
          · by_cases hk : isKvStart l
            · simp [cleanGo, kvMask, ht, hk, ih]
            · simp [cleanGo, kvMask, ht, hk, ih]

/-- Cleaned output is a sublist of the input: lines are kept unmodified and
in their original relative order. -/
theorem cleanGo_sublist (b : Bool) (ls : List String) :
    (cleanGo b ls).Sublist ls := by
  induction ls generalizing b with
  | nil => simp [cleanGo]
  | cons l ls ih =>
      by_cases ht : isTxnLine l
      · simpa [cleanGo, ht] using (ih b).cons l
      · by_cases hk : isKvStart l
        · simpa [cleanGo, ht, hk] using (ih true).cons l
        · cases b with
          | true =>
              by_cases hr : hasRowidEnd l
              · simpa [cleanGo, ht, hk, hr] using (ih false).cons l
              · simpa [cleanGo, ht, hk, hr] using (ih true).cons l
          | false => simpa [cleanGo, ht, hk] using (ih false).cons₂ l

/-- Kept lines plus skipped lines account for every processed line. -/
theorem cleanGo_length_add (b : Bool) (ls : List String) :
    (cleanGo b ls).length + skippedCount b ls = ls.length := by
  induction ls generalizing b with
  | nil => simp [cleanGo, skippedCount]
  | cons l ls ih =>
      by_cases ht : isTxnLine l
      · have := ih b
        simp [cleanGo, skippedCount, ht]
        omega
      · by_cases hk : isKvStart l
        · have := ih true
          simp [cleanGo, skippedCount, ht, hk]
          omega
        · cases b with
          | true =>
              by_cases hr : hasRowidEnd l
              · have := ih false
                simp [cleanGo, skippedCount, ht, hk, hr]
                omega
              · have := ih true
                simp [cleanGo, skippedCount, ht, hk, hr]
                omega
          | false =>
              have := ih false
              simp [cleanGo, skippedCount, ht, hk]
              omega

/-- C3 counterexample: in this dump the line closing the claimed _cf_KV
block also starts with `COMMIT;`, so the cleaner skips it as a transaction
line without lowering the block flag and then swallows the following
`SELECT 1;` line, while the claim's declarative description keeps it. -/
theorem C3_cleaner_counterexample :
    dump_and_clean_sqlite
        ["CREATE TABLE _cf_KV (k TEXT);", "COMMIT; -- WITHOUT ROWID;",
          "SELECT 1;"] = [] ∧
    cleanClaimedSpec
        ["CREATE TABLE _cf_KV (k TEXT);", "COMMIT; -- WITHOUT ROWID;",
          "SELECT 1;"] = ["SELECT 1;"] := by
  decide

/-- C3 (amended): the cleaner keeps the input's lines unmodified and in
order, minus transaction lines and minus every _cf_KV block, where a block
ends only at a later line that contains `WITHOUT ROWID;` and is itself
neither a transaction line nor a `^CREATE TABLE _cf_KV ` match; processed
lines always equal kept plus skipped lines. -/
theorem C3_cleaner_amended (lines : List String) :
    dump_and_clean_sqlite lines = cleanAmendedSpec lines ∧
    (dump_and_clean_sqlite lines).Sublist lines ∧
    (dump_and_clean_sqlite lines).length + skippedCount false lines =
      lines.length :=
  ⟨cleanGo_eq_mask false lines, cleanGo_sublist false lines,
    cleanGo_length_add false lines⟩

/-- With the skip flag up and no line containing `WITHOUT ROWID;`, the
cleaner emits nothing. -/
theorem cleanGo_true_eq_nil (ls : List String)
    (h : ∀ l ∈ ls, hasRowidEnd l = false) : cleanGo true ls = [] := by
  induction ls with
  | nil => rfl
  | cons l ls ih =>
      have hl := h l (List.mem_cons_self l ls)
      have hrest : ∀ x ∈ ls, hasRowidEnd x = false :=
        fun x hx => h x (List.mem_cons_of_mem l hx)
      by_cases ht : isTxnLine l
      · simp [cleanGo, ht, ih hrest]
      · by_cases hk : isKvStart l
        · simp [cleanGo, ht, hk, ih hrest]
        · simp [cleanGo, ht, hk, hl, ih hrest]

/-- Scanning a block-free prefix just filters its transaction lines and
passes the lowered flag on. -/
theorem cleanGo_false_append (pre rest : List String)
    (h : ∀ l ∈ pre, isKvStart l = false) :
    cleanGo false (pre ++ rest) =
      pre.filter (fun l => !isTxnLine l) ++ cleanGo false rest := by
  induction pre with
  | nil => simp
  | cons l pre ih =>
      have hl := h l (List.mem_cons_self l pre)
      have hrest : ∀ x ∈ pre, isKvStart x = false :=
        fun x hx => h x (List.mem_cons_of_mem l hx)
      by_cases ht : isTxnLine l
      · simp [cleanGo, ht, hl, ih hrest, List.filter_cons]
      · simp [cleanGo, ht, hl, ih hrest, List.filter_cons]

/-- A line matching `^CREATE TABLE _cf_KV ` cannot also be a transaction
line: the two prefixes are incompatible. -/
theorem isKvStart_not_txn (l : String) (h : isKvStart l = true) :
    isTxnLine l = false := by
  rw [isKvStart, strStartsWith] at h
  rw [ List.isPrefixOf_iff_prefix] at h
  rw [isTxnLine]
  have hb : strStartsWith l "BEGIN TRANSACTION;" = false := by
    rw [strStartsWith]
    by_contra hc
    rw [Bool.not_eq_false, List.isPrefixOf_iff_prefix] at hc
    rcases List.prefix_or_prefix_of_prefix hc h with hp | hp
    · exact absurd ( List.isPrefixOf_iff_prefix.mpr hp) (by decide)
    · exact absurd ( List.isPrefixOf_iff_prefix.mpr hp) (by decide)
  have hcm : strStartsWith l "COMMIT;" = false := by
    rw [strStartsWith]
    by_contra hc
    rw [Bool.not_eq_false, List.isPrefixOf_iff_prefix] at hc
    rcases List.prefix_or_prefix_of_prefix hc h with hp | hp
    · exact absurd ( List.isPrefixOf_iff_prefix.mpr hp) (by decide)
    · exact absurd ( List.isPrefixOf_iff_prefix.mpr hp) (by decide)
  simp [hb, hcm]

/-- C9: when a `^CREATE TABLE _cf_KV ` line opens a block that no later
line closes with `WITHOUT ROWID;`, the cleaner removes everything from
that line to the end, so the output is exactly the cleaned prefix before
the block. -/
theorem C9_unterminated_kv_block_truncates (pre : List String) (k : String)
    (post : List String) (hpre : ∀ l ∈ pre, isKvStart l = false)
    (hk : isKvStart k = true)
    (hpost : ∀ l ∈ post, hasRowidEnd l = false) :
    dump_and_clean_sqlite (pre ++ k :: post) = dump_and_clean_sqlite pre := by
  have htxn := isKvStart_not_txn k hk
  rw [dump_and_clean_sqlite, dump_and_clean_sqlite,
    cleanGo_false_append pre (k :: post) hpre]
  have hblock : cleanGo false (k :: post) = [] := by
    simp [cleanGo, htxn, hk, cleanGo_true_eq_nil post hpost]
  rw [hblock, List.append_nil]
  have hpre' := cleanGo_false_append pre [] hpre
  simp only [List.append_nil] at hpre'
  rw [hpre']
  simp [cleanGo]

/-- Witness for C9 at a concrete dump with an unterminated _cf_KV block. -/
theorem C9_unterminated_kv_block_truncates_witness :
    dump_and_clean_sqlite
        (["CREATE TABLE t1 (a TEXT);"] ++
          "CREATE TABLE _cf_KV (k TEXT," ::
            ["INSERT INTO _cf_KV VALUES (1);"]) =
      dump_and_clean_sqlite ["CREATE TABLE t1 (a TEXT);"] :=
  C9_unterminated_kv_block_truncates ["CREATE TABLE t1 (a TEXT);"]
    "CREATE TABLE _cf_KV (k TEXT," ["INSERT INTO _cf_KV VALUES (1);"]
    (by decide) (by decide) (by decide)

/-- C5: sync_remote_parquet.py `main` uploads exactly when change detection
returned a non-empty list and `--no-updates` is absent, and always writes
the JSON of changed table names. -/
theorem C5_sync_conditional_upload (changed : List String) (noUpd : Bool) :
    ((∃ fs, SyncEvent.upload fs ∈ sync_main_events changed noUpd) ↔
      (changed ≠ [] ∧ noUpd = false)) ∧
    SyncEvent.writeJson (changed.map changedTableName) ∈
      sync_main_events changed noUpd := by
  cases changed with
  | nil => cases noUpd <;> simp [sync_main_events]
  | cons f fs => cases noUpd <;> simp [sync_main_events]

/-- C1: the change-detection comparison marks a table changed exactly under
the claim's condition — remote counterpart missing, a load failure, or the
two sorted frames beyond tolerance — and under nothing else; in particular
the raw bytes of the files are never consulted. -/
theorem C1_changed_iff_claim (ts : List MartParquetPair) :
    get_changed_mart_tables_from_parquet ts =
      (ts.filter changedPerClaim).map (fun t => t.name) := by
  induction ts with
  | nil => rfl
  | cons t ts ih =>
      rcases t with ⟨name, re, sb, lf, rf⟩
      cases re with
      | false =>
          simp [get_changed_mart_tables_from_parquet, changedPerClaim,
            List.filter_cons, ih]
      | true =>
          cases lf with
          | none =>
              simp [get_changed_mart_tables_from_parquet, changedPerClaim,
                load_and_sort_parquet_file, List.filter_cons, ih]
          | some l =>
              cases rf with
              | none =>
                  simp [get_changed_mart_tables_from_parquet, changedPerClaim,
                    load_and_sort_parquet_file, List.filter_cons, ih]
              | some r =>
                  by_cases hf : frameWithinTol (sortFrame l) (sortFrame r)
                  · simp [get_changed_mart_tables_from_parquet, changedPerClaim,
                      load_and_sort_parquet_file, List.filter_cons, hf, ih]
                  · simp [get_changed_mart_tables_from_parquet, changedPerClaim,
                      load_and_sort_parquet_file, List.filter_cons, hf, ih]

/-- Sorting by all columns maps frames with the same multiset of rows to
the same list. -/
theorem sortFrame_eq_of_perm {f1 f2 : DFrame} (h : f1.Perm f2) :
    sortFrame f1 = sortFrame f2 := by
  haveI : IsAntisymm DFRow (· ≤ ·) :=
    inferInstanceAs (IsAntisymm (List ℚ) (· ≤ ·))
  refine List.eq_of_perm_of_sorted
    (r := ((· ≤ ·) : List ℚ → List ℚ → Prop)) ?_ ?_ ?_
  · exact ((List.perm_insertionSort _ f1).trans h).trans
      (List.perm_insertionSort _ f2).symm
  · exact List.sorted_insertionSort _ f1
  · exact List.sorted_insertionSort _ f2

/-- A cell is always within tolerance of itself. -/
theorem valWithinTol_refl (a : ℚ) : valWithinTol a a = true := by
  simp only [valWithinTol, decide_eq_true_eq, sub_self, abs_zero]
  have : (0:ℚ) ≤ rtol * |a| := by
    have := abs_nonneg a
    rw [rtol]
    positivity
  have : (0:ℚ) < atol := by rw [atol]; norm_num
  linarith

/-- A row is always within tolerance of itself. -/
theorem rowWithinTol_refl (r : DFRow) : rowWithinTol r r = true := by
  induction r with
  | nil => rfl
  | cons a r ih =>
      simp only [rowWithinTol, List.zip_cons_cons, List.all_cons,
        valWithinTol_refl, Bool.true_and, List.length_cons] at ih ⊢
      simpa using ih

/-- A frame is always within tolerance of itself. -/
theorem frameWithinTol_refl (f : DFrame) : frameWithinTol f f = true := by
  induction f with
  | nil => rfl
  | cons r f ih =>
      simp only [frameWithinTol, List.zip_cons_cons, List.all_cons,
        rowWithinTol_refl, Bool.true_and, List.length_cons] at ih ⊢
      simpa using ih

/-- C8: the comparison is insensitive to row order — two loadable Parquet
files holding the same multiset of rows in any orders are classified
unchanged, whatever their names or raw bytes. -/
theorem C8_comparison_row_order_insensitive (name : String) (sb : Bool)
    (f1 f2 : DFrame) (h : f1.Perm f2) :
    get_changed_mart_tables_from_parquet
      [⟨name, true, sb, some f1, some f2⟩] = [] := by
  simp only [get_changed_mart_tables_from_parquet, load_and_sort_parquet_file,
    Option.map_some', Bool.not_true, Bool.false_eq_true, if_false]
  rw [sortFrame_eq_of_perm h, frameWithinTol_refl]
  simp

/-- Witness for C8 at two concrete two-row frames in swapped orders. -/
theorem C8_comparison_row_order_insensitive_witness :
    get_changed_mart_tables_from_parquet
      [⟨"fct_wdi_history", true, false, some [[1, 2], [3, 4]],
        some [[3, 4], [1, 2]]⟩] = [] :=
  C8_comparison_row_order_insensitive "fct_wdi_history" false
    [[1, 2], [3, 4]] [[3, 4], [1, 2]] (by decide)
